import Mathlib

/-!
# Verification of the Pigment Factory grid core

Shallow embedding of the color math (`src/colorUtils.js` / `src/game.js`) and of
the factory-grid graph core (`src/game.js`): components, ports, connections,
the connection resolver, and the fixed-point propagation engine
(`computeColors`).

JavaScript number arithmetic is modelled by exact rational arithmetic: a JS
number is a `JsNum`, an explicit numerator/denominator pair of integers (every
division performed by the source has a positive denominator, and all other
operations preserve positivity of denominators).  `Math.round` is
`⌊x + 1/2⌋` (JS rounds half toward +∞) and `Math.floor` is `⌊x⌋`, realised by
integer floor division.  Bridge lemmas (`JsNum.toRat_add` etc.) relate the pair
operations to `ℚ` arithmetic.  Colors are integer RGB triples; the absent color
(`null`) is `Option.none`.  DOM rendering, drag positioning, SVG drawing and
inventory panels are view glue and are not part of the embedded core.
-/

namespace Pigment

/-- Exact value of a JS number as an integer fraction `num / den`.
All denominators arising in the embedded code are positive. -/
structure JsNum where
  num : ℤ
  den : ℤ
deriving DecidableEq, Repr

namespace JsNum

/-- Embed an integer-valued JS number. -/
def ofInt (n : ℤ) : JsNum := ⟨n, 1⟩

instance (n : ℕ) : OfNat JsNum n := ⟨⟨(n : ℤ), 1⟩⟩

instance : Add JsNum := ⟨fun x y => ⟨x.num * y.den + y.num * x.den, x.den * y.den⟩⟩

instance : Sub JsNum := ⟨fun x y => ⟨x.num * y.den - y.num * x.den, x.den * y.den⟩⟩

instance : Mul JsNum := ⟨fun x y => ⟨x.num * y.num, x.den * y.den⟩⟩

instance : Div JsNum := ⟨fun x y => ⟨x.num * y.den, x.den * y.num⟩⟩

/-- `x ≤ y` for fractions with positive denominators (cross multiplication). -/
def ble (x y : JsNum) : Bool := decide (x.num * y.den ≤ y.num * x.den)

/-- JS `Math.min` on numbers. -/
def jsMin (x y : JsNum) : JsNum := if x.ble y then x else y

/-- JS `Math.max` on numbers. -/
def jsMax (x y : JsNum) : JsNum := if x.ble y then y else x

/-- The rational value of a `JsNum`. -/
def toRat (x : JsNum) : ℚ := (x.num : ℚ) / (x.den : ℚ)

theorem toRat_ofInt (n : ℤ) : (ofInt n).toRat = (n : ℚ) := by
  simp [ofInt, toRat]

theorem toRat_add (x y : JsNum) (hx : x.den ≠ 0) (hy : y.den ≠ 0) :
    (x + y).toRat = x.toRat + y.toRat := by
  show (JsNum.mk _ _).toRat = _
  unfold toRat
  have hx' : (x.den : ℚ) ≠ 0 := Int.cast_ne_zero.mpr hx
  have hy' : (y.den : ℚ) ≠ 0 := Int.cast_ne_zero.mpr hy
  push_cast
  field_simp

theorem toRat_sub (x y : JsNum) (hx : x.den ≠ 0) (hy : y.den ≠ 0) :
    (x - y).toRat = x.toRat - y.toRat := by
  show (JsNum.mk _ _).toRat = _
  unfold toRat
  have hx' : (x.den : ℚ) ≠ 0 := Int.cast_ne_zero.mpr hx
  have hy' : (y.den : ℚ) ≠ 0 := Int.cast_ne_zero.mpr hy
  push_cast
  field_simp
  ring

theorem toRat_mul (x y : JsNum) :
    (x * y).toRat = x.toRat * y.toRat := by
  show (JsNum.mk _ _).toRat = _
  unfold toRat
  push_cast
  rw [div_mul_div_comm]

theorem toRat_div (x y : JsNum) (hx : x.den ≠ 0) (hy : y.den ≠ 0)
    (hy' : y.num ≠ 0) : (x / y).toRat = x.toRat / y.toRat := by
  show (JsNum.mk _ _).toRat = _
  unfold toRat
  have h1 : (x.den : ℚ) ≠ 0 := Int.cast_ne_zero.mpr hx
  have h2 : (y.den : ℚ) ≠ 0 := Int.cast_ne_zero.mpr hy
  have h3 : (y.num : ℚ) ≠ 0 := Int.cast_ne_zero.mpr hy'
  push_cast
  field_simp

end JsNum

/-- JS `Math.floor` (exact: integer floor division, denominators positive). -/
def jsFloor (x : JsNum) : ℤ := Int.fdiv x.num x.den

/-- JS `Math.round`: rounds half toward positive infinity, i.e. `⌊x + 1/2⌋`. -/
def jsRound (x : JsNum) : ℤ := jsFloor (x + (1 : JsNum) / 2)

theorem jsFloor_eq_floor (x : JsNum) (hx : 0 < x.den) :
    jsFloor x = ⌊x.toRat⌋ := by
  unfold jsFloor JsNum.toRat
  rw [Int.fdiv_eq_ediv _ hx.le]
  have h1 : ((x.den.toNat : ℤ) : ℚ) = (x.den : ℚ) := by
    rw [Int.toNat_of_nonneg hx.le]
  rw [← Int.toNat_of_nonneg hx.le, Int.cast_natCast]
  exact (Rat.floor_intCast_div_natCast x.num x.den.toNat).symm

/-- JS `Math.min` on integers. -/
def intMin (a b : ℤ) : ℤ := if a ≤ b then a else b

/-- JS `Math.max` on integers. -/
def intMax (a b : ℤ) : ℤ := if b ≤ a then a else b

/-- An RGB (or RYB) triple, a JS array `[r, g, b]` of numbers.  Every color that
flows through the core is produced by `Math.round`, so channels are integers. -/
structure Color where
  r : ℤ
  g : ℤ
  b : ℤ
deriving DecidableEq, Repr

/-- `cubicInt(t, a, b)` from `colorUtils.js`: smoothstep-weighted interpolation. -/
def cubicInt (t a b : JsNum) : JsNum :=
  let weight := t * t * (3 - 2 * t)
  a + weight * (b - a)

/-- The 8 RYB cube corner colors (`COLORS` in `rybToRgb`), as rows of numbers. -/
def RYBCORNERS : List (List JsNum) :=
  [[255, 255, 255],
   [0, 0, 255],
   [255, 255, 0],
   [0, 255, 0],
   [255, 0, 0],
   [128, 0, 128],
   [255, 128, 0],
   [0, 0, 0]]

/-- `interpolateComponent(iR, iY, iB, colors, component)` from `colorUtils.js`.
Out-of-range indices never occur at call sites; they default to `0`. -/
def interpolateComponent (iR iY iB : JsNum) (colors : List (List JsNum))
    (component : ℕ) : JsNum :=
  let get := fun (i : ℕ) => (colors.getD i []).getD component 0
  let x0 := cubicInt iB (get 0) (get 1)
  let x1 := cubicInt iB (get 2) (get 3)
  let x2 := cubicInt iB (get 4) (get 5)
  let x3 := cubicInt iB (get 6) (get 7)
  let y0 := cubicInt iY x0 x1
  let y1 := cubicInt iY x2 x3
  cubicInt iR y0 y1

/-- `rybToRgb(ryb)` from `colorUtils.js` (duplicated verbatim in `game.js`). -/
def rybToRgb (ryb : Color) : Color :=
  let r := JsNum.ofInt ryb.r / 255
  let y := JsNum.ofInt ryb.g / 255
  let b := JsNum.ofInt ryb.b / 255
  let outR := interpolateComponent r y b RYBCORNERS 0
  let outG := interpolateComponent r y b RYBCORNERS 1
  let outB := interpolateComponent r y b RYBCORNERS 2
  ⟨jsRound (JsNum.jsMin 255 (JsNum.jsMax 0 outR)),
   jsRound (JsNum.jsMin 255 (JsNum.jsMax 0 outG)),
   jsRound (JsNum.jsMin 255 (JsNum.jsMax 0 outB))⟩

/-- `rgbToRyb(rgb)` from `colorUtils.js` (duplicated verbatim in `game.js`). -/
def rgbToRyb (rgb : Color) : Color :=
  let r0 := rgb.r
  let g0 := rgb.g
  let b0 := rgb.b
  -- Remove whiteness from the color
  let white := intMin r0 (intMin g0 b0)
  let r1 := r0 - white
  let g1 := g0 - white
  let b1 := b0 - white
  let maxG := intMax r1 (intMax g1 b1)
  -- Get yellow out of red+green
  let y1 := intMin r1 g1
  let r2 := r1 - y1
  let g2 := g1 - y1
  -- If blue and green, cut both in half to make blue
  let b2 := if 0 < b1 ∧ 0 < g2 then jsFloor (JsNum.ofInt b1 / 2) else b1
  let g3 := if 0 < b1 ∧ 0 < g2 then jsFloor (JsNum.ofInt g2 / 2) else g2
  -- Redistribute remaining green: green contributes to both yellow and blue
  let y2 := y1 + g3
  let b3 := b2 + g3
  -- Normalize to max value
  let maxRYB := intMax r2 (intMax y2 b3)
  let factor := JsNum.ofInt maxG / JsNum.ofInt maxRYB
  let r3 := if 0 < maxRYB then jsRound (JsNum.ofInt r2 * factor) else r2
  let y3 := if 0 < maxRYB then jsRound (JsNum.ofInt y2 * factor) else y2
  let b4 := if 0 < maxRYB then jsRound (JsNum.ofInt b3 * factor) else b3
  -- Add whiteness back
  ⟨r3 + white, y3 + white, b4 + white⟩

/-- `mixColors(color1, color2)` from `colorUtils.js` (and `game.js`): convert to
RYB, average component-wise with rounding, convert back. -/
def mixColors (color1 color2 : Color) : Color :=
  let ryb1 := rgbToRyb color1
  let ryb2 := rgbToRyb color2
  let mixedRyb : Color :=
    ⟨jsRound ((JsNum.ofInt ryb1.r + JsNum.ofInt ryb2.r) / 2),
     jsRound ((JsNum.ofInt ryb1.g + JsNum.ofInt ryb2.g) / 2),
     jsRound ((JsNum.ofInt ryb1.b + JsNum.ofInt ryb2.b) / 2)⟩
  rybToRgb mixedRyb

/-- Gradientor mode; in the source a string, `'darken'` or `'lighten'`. -/
inductive Mode where
  | lighten
  | darken
deriving DecidableEq, Repr

/-- `adjustColor(color, mode)` from `game.js`: scale every channel by 0.8
(darken) or 1.2 (lighten), round, clamp to [0, 255]; absent stays absent. -/
def adjustColor (color : Option Color) (mode : Mode) : Option Color :=
  match color with
  | none => none
  | some c =>
      let factor : JsNum := match mode with
        | .darken => (8 : JsNum) / 10
        | .lighten => (12 : JsNum) / 10
      some ⟨intMax 0 (intMin 255 (jsRound (JsNum.ofInt c.r * factor))),
            intMax 0 (intMin 255 (jsRound (JsNum.ofInt c.g * factor))),
            intMax 0 (intMin 255 (jsRound (JsNum.ofInt c.b * factor)))⟩

/-- Auxiliary: addition of `JsNum` fractions is commutative. -/
theorem jsAdd_comm (x y : JsNum) : x + y = y + x := by
  show JsNum.mk _ _ = JsNum.mk _ _
  simp only [JsNum.mk.injEq]
  constructor <;> ring

/-- C8 counterexample: mixing black `[0,0,0]` with itself yields white
`[255,255,255]` (not black), because `rgbToRyb` sends black to the RYB origin
and `rybToRgb` sends the RYB origin to the white cube corner.  So
`mixColors(c, c) = c` fails for a color with channels in 0–255. -/
theorem mixColors_self_black_ne :
    mixColors ⟨0, 0, 0⟩ ⟨0, 0, 0⟩ = ⟨255, 255, 255⟩ ∧
      mixColors ⟨0, 0, 0⟩ ⟨0, 0, 0⟩ ≠ ⟨0, 0, 0⟩ := by
  constructor
  · decide
  · decide

/-- C8 (amended): mixing a color with itself returns exactly that color for the
game's three primary factory colors (red, yellow, blue); it does not hold for
arbitrary 0–255 colors (see the counterexample at black). -/
theorem mixColors_self_primaries :
    mixColors ⟨255, 0, 0⟩ ⟨255, 0, 0⟩ = ⟨255, 0, 0⟩ ∧
      mixColors ⟨255, 255, 0⟩ ⟨255, 255, 0⟩ = ⟨255, 255, 0⟩ ∧
      mixColors ⟨0, 0, 255⟩ ⟨0, 0, 255⟩ = ⟨0, 0, 255⟩ := by
  refine ⟨?_, ?_, ?_⟩ <;> decide

/-- C10: `mixColors` is commutative — both orders average the same two RYB
triples component-wise before converting back to RGB. -/
theorem mixColors_comm (a b : Color) : mixColors a b = mixColors b a := by
  unfold mixColors
  dsimp only
  rw [jsAdd_comm (JsNum.ofInt (rgbToRyb a).r) (JsNum.ofInt (rgbToRyb b).r),
    jsAdd_comm (JsNum.ofInt (rgbToRyb a).g) (JsNum.ofInt (rgbToRyb b).g),
    jsAdd_comm (JsNum.ofInt (rgbToRyb a).b) (JsNum.ofInt (rgbToRyb b).b)]

/-! ## Port/Component graph model (`game.js`) -/

/-- Port role, fixed at creation (`dataset.role` in `addPort`). -/
inductive Role where
  | input
  | output
  | flex
deriving DecidableEq, Repr

/-- Component kind (`component.type`). -/
inductive CKind where
  | factory
  | adder
  | gradientor
  | storage
deriving DecidableEq, Repr

/-- A port owned by a component.  The source also stores a `side` and a DOM
element, which are layout-only; ids are the global `nextId` counter values. -/
structure Port where
  id : ℕ
  role : Role
deriving DecidableEq, Repr

/-- A `(componentId, portId)` reference, the `portRef` objects of the source;
`portKey` string keys are injective on these, so the pair itself is the key. -/
structure PortRef where
  componentId : ℕ
  portId : ℕ
deriving DecidableEq, Repr

/-- A directed connection (`connections` array entries).  `fromRef`/`toRef`
model the source's `from`/`to` fields (`from` is a Lean keyword). -/
structure Connection where
  id : ℕ
  fromRef : PortRef
  toRef : PortRef
deriving DecidableEq, Repr

/-- A component.  `color` is the factory's fixed color, `mode` the gradientor
mode, `storageSlots` the per-port stored colors of a storage container
(a JS object keyed by port id, modelled as an association list; absent keys
and stored `null` both read back as `none`, exactly like `slots[id] || null`).
The DOM element and inventory panel are view glue and omitted. -/
structure Component where
  id : ℕ
  type : CKind
  color : Option Color
  mode : Option Mode
  ports : List Port
  storageSlots : List (ℕ × Option Color)
deriving DecidableEq, Repr

/-- `component.storageSlots[pid] || null`. -/
def slotGet (slots : List (ℕ × Option Color)) (pid : ℕ) : Option Color :=
  match slots.find? (fun e => e.1 == pid) with
  | some e => e.2
  | none => none

/-- `component.storageSlots[pid] = v`. -/
def slotSet (slots : List (ℕ × Option Color)) (pid : ℕ) (v : Option Color) :
    List (ℕ × Option Color) :=
  (pid, v) :: slots.filter (fun e => !(e.1 == pid))

/-- The transient port-output map of `computeColors` (a JS `Map` keyed by
`portKey`). -/
def PMap : Type := List (PortRef × Option Color)

/-- `map.has(key) ? map.get(key) : null`, with `undefined`/`null` collapsing —
also the value of `map.get(key) || null` (color arrays are always truthy). -/
def mapGetD (m : PMap) (k : PortRef) : Option Color :=
  match m.find? (fun e => e.1 == k) with
  | some e => e.2
  | none => none

/-- `map.set(key, v)` (order of entries is never observed). -/
def mapSet (m : PMap) (k : PortRef) (v : Option Color) : PMap :=
  (k, v) :: List.filter (fun e => !(e.1 == k)) m

/-- `colorsEqual(a, b)` from `game.js`. -/
def colorsEqual : Option Color → Option Color → Bool
  | none, none => true
  | some a, some b => a.r == b.r && a.g == b.g && a.b == b.b
  | _, _ => false

/-- `setPortOutput(map, key, color)` from `game.js`: normalize (`color || null`),
write only when the value changed, report whether it did. -/
def setPortOutput (m : PMap) (key : PortRef) (color : Option Color) :
    PMap × Bool :=
  let normalized := color
  let current := mapGetD m key
  if colorsEqual current normalized then (m, false)
  else (mapSet m key normalized, true)

/-- `connections.find(conn => conn.to.componentId === cid && conn.to.portId === pid)`. -/
def findInbound (conns : List Connection) (cid pid : ℕ) : Option Connection :=
  conns.find? (fun conn => conn.toRef.componentId == cid && conn.toRef.portId == pid)

/-- The color read for a sink port: the inbound connection's source port value
in the port-output map (`portOutputs.get(portKey(inbound.from)) || null`), or
absent when the port has no incoming connection. -/
def inboundRead (conns : List Connection) (cid : ℕ) (m : PMap) (pid : ℕ) :
    Option Color :=
  match findInbound conns cid pid with
  | none => none
  | some inbound => mapGetD m inbound.fromRef

/-! ## Propagation engine (`computeColors`) -/

/-- `ports.forEach(port => { if (setPortOutput(map, key(port), color)) changed = true })`. -/
def emitOutputs (cid : ℕ) (color : Option Color) : List Port → PMap → PMap × Bool
  | [], m => (m, false)
  | p :: rest, m =>
      let r := setPortOutput m ⟨cid, p.id⟩ color
      let rr := emitOutputs cid color rest r.1
      (rr.1, r.2 || rr.2)

/-- The factory branch of `computeColors`: every Output port emits the fixed color. -/
def processFactory (c : Component) (m : PMap) : PMap × Bool :=
  emitOutputs c.id c.color (c.ports.filter (fun p => p.role == .output)) m

/-- The adder branch of `computeColors`: read both Input ports, keep the non-null
values (`filter(Boolean)`), output `mixColors` of the first two iff at least two. -/
def processAdder (conns : List Connection) (c : Component) (m : PMap) :
    PMap × Bool :=
  let inputPorts := c.ports.filter (fun p => p.role == .input)
  let inputColors :=
    (inputPorts.map (fun p => inboundRead conns c.id m p.id)).reduceOption
  let outputPorts := c.ports.filter (fun p => p.role == .output)
  let outColor :=
    if 2 ≤ inputColors.length then
      some (mixColors (inputColors.getD 0 ⟨0, 0, 0⟩) (inputColors.getD 1 ⟨0, 0, 0⟩))
    else none
  emitOutputs c.id outColor outputPorts m

/-- The gradientor branch of `computeColors`. -/
def processGradientor (conns : List Connection) (c : Component) (m : PMap) :
    PMap × Bool :=
  let inputPort := c.ports.find? (fun p => p.role == .input)
  let outputPort := c.ports.find? (fun p => p.role == .output)
  let inboundColor := match inputPort with
    | none => none
    | some ip => inboundRead conns c.id m ip.id
  let adjusted := adjustColor inboundColor
    (if c.mode == some Mode.darken then Mode.darken else Mode.lighten)
  match outputPort with
  | none => (m, false)
  | some op => setPortOutput m ⟨c.id, op.id⟩ adjusted

/-- First storage loop: update each Flex port's held slot from its inbound read
when the value differs (the only place held state mutates). -/
def storagePhase1 (conns : List Connection) (cid : ℕ) (m : PMap) :
    List Port → List (ℕ × Option Color) → List (ℕ × Option Color) × Bool
  | [], slots => (slots, false)
  | p :: rest, slots =>
      if p.role == .flex then
        let inboundColor := inboundRead conns cid m p.id
        let prev := slotGet slots p.id
        if colorsEqual prev inboundColor then
          storagePhase1 conns cid m rest slots
        else
          let r := storagePhase1 conns cid m rest (slotSet slots p.id inboundColor)
          (r.1, true)
      else storagePhase1 conns cid m rest slots

/-- Second storage loop: each Flex port emits its (possibly just updated) held value. -/
def storagePhase2 (cid : ℕ) (slots : List (ℕ × Option Color)) :
    List Port → PMap → PMap × Bool
  | [], m => (m, false)
  | p :: rest, m =>
      if p.role == .flex then
        let stored := slotGet slots p.id
        let r := setPortOutput m ⟨cid, p.id⟩ stored
        let rr := storagePhase2 cid slots rest r.1
        (rr.1, r.2 || rr.2)
      else storagePhase2 cid slots rest m

/-- The storage branch of `computeColors`: update held slots, then emit them. -/
def processStorage (conns : List Connection) (c : Component) (m : PMap) :
    Component × PMap × Bool :=
  let ph1 := storagePhase1 conns c.id m c.ports c.storageSlots
  let ph2 := storagePhase2 c.id ph1.1 c.ports m
  ({ c with storageSlots := ph1.1 }, ph2.1, ph1.2 || ph2.2)

/-- One component's turn inside a `computeColors` round (the body of
`components.forEach`), returning the possibly slot-updated component, the
updated port-output map, and whether anything changed. -/
def processComponent (conns : List Connection) (m : PMap) (c : Component) :
    Component × PMap × Bool :=
  match c.type with
  | .factory => let r := processFactory c m; (c, r.1, r.2)
  | .adder => let r := processAdder conns c m; (c, r.1, r.2)
  | .gradientor => let r := processGradientor conns c m; (c, r.1, r.2)
  | .storage => processStorage conns c m

/-- One full round of `computeColors` over the component list (in order),
threading the port-output map and OR-ing the `changed` flags. -/
def runPass (conns : List Connection) :
    List Component → PMap → List Component × PMap × Bool
  | [], m => ([], m, false)
  | c :: cs, m =>
      let r := processComponent conns m c
      let rr := runPass conns cs r.2.1
      (r.1 :: rr.1, rr.2.1, r.2.2 || rr.2.2)

/-- The `while (changed && guard < 8)` loop of `computeColors`: run a round,
repeat while it reported a change, up to the fuel bound. -/
def computeLoop (conns : List Connection) :
    ℕ → List Component → PMap → List Component × PMap
  | 0, comps, m => (comps, m)
  | fuel + 1, comps, m =>
      let r := runPass conns comps m
      if r.2.2 then computeLoop conns fuel r.1 r.2.1 else (r.1, r.2.1)

/-- `computeColors()` from `game.js`: fixed-point iteration from an empty
port-output map, at most 8 rounds.  Returns the updated components (storage
slots may have mutated) and the final port-output map.  The trailing DOM
updates (`updatePortsWithColors`, `updateStorageWarnings`) are view glue. -/
def computeColors (comps : List Component) (conns : List Connection) :
    List Component × PMap :=
  computeLoop conns 8 comps []

/-- Exactly `n` unconditional evaluation rounds (for stating the round bound). -/
def passIter (conns : List Connection) :
    ℕ → List Component → PMap → List Component × PMap
  | 0, comps, m => (comps, m)
  | n + 1, comps, m =>
      let r := runPass conns comps m
      passIter conns n r.1 r.2.1

/-- `computeLoop` performs some number of rounds bounded by its fuel. -/
theorem computeLoop_eq_passIter (conns : List Connection) :
    ∀ fuel comps m, ∃ n, n ≤ fuel ∧
      computeLoop conns fuel comps m = passIter conns n comps m := by
  intro fuel
  induction fuel with
  | zero => intro comps m; exact ⟨0, le_refl 0, rfl⟩
  | succ fuel ih =>
      intro comps m
      by_cases h : (runPass conns comps m).2.2
      · obtain ⟨n, hn, he⟩ := ih (runPass conns comps m).1 (runPass conns comps m).2.1
        refine ⟨n + 1, by omega, ?_⟩
        simp only [computeLoop, passIter, h, if_true]
        exact he
      · refine ⟨1, by omega, ?_⟩
        simp [computeLoop, passIter, h]

/-- C7: for every graph state, `computeColors` is the result of at most 8
evaluation rounds (it is a total function of the state — defined for cyclic
wiring, missing inputs and unconnected ports alike, so no run raises an
error — and it returns the snapshot reached when iteration stops). -/
theorem computeColors_at_most_eight_rounds (comps : List Component)
    (conns : List Connection) :
    ∃ n, n ≤ 8 ∧ computeColors comps conns = passIter conns n comps [] :=
  computeLoop_eq_passIter conns 8 comps []

/-! ## Session operations (`game.js` event handlers as state transitions) -/

/-- The whole mutable session: the `components` and `connections` globals plus
the `idCounter`.  (`selectedPort` is click-UI glue; the spec-level `tryConnect`
takes both port references at once.) -/
structure GameState where
  components : List Component
  connections : List Connection
  idCounter : ℕ
deriving DecidableEq, Repr

/-- `getPort(ref)` from `game.js`. -/
def getPort (s : GameState) (ref : PortRef) : Option Port :=
  match s.components.find? (fun c => c.id == ref.componentId) with
  | none => none
  | some component => component.ports.find? (fun p => p.id == ref.portId)

/-- `canAccept` from `resolveConnection`: the destination port must not already
be the `to` endpoint of any connection. -/
def canAccept (s : GameState) (toPortRef : PortRef) : Bool :=
  !(s.connections.any (fun conn =>
    conn.toRef.componentId == toPortRef.componentId &&
      conn.toRef.portId == toPortRef.portId))

/-- `canSend` from `resolveConnection`: adder and gradientor Output ports may
fan out; any other source port may source at most one connection. -/
def canSend (s : GameState) (fromPortRef : PortRef) (fromPort : Port) : Bool :=
  let sourceComponent := s.components.find? (fun c => c.id == fromPortRef.componentId)
  let isAdderOutput :=
    (match sourceComponent with
      | some c => c.type == CKind.adder
      | none => false) && fromPort.role == Role.output
  let isGradientorOutput :=
    (match sourceComponent with
      | some c => c.type == CKind.gradientor
      | none => false) && fromPort.role == Role.output
  if isAdderOutput || isGradientorOutput then true
  else
    !(s.connections.any (fun conn =>
      conn.fromRef.componentId == fromPortRef.componentId &&
        conn.fromRef.portId == fromPortRef.portId))

/-- `resolveConnection(firstRef, secondRef)` from `game.js`: orient the pair by
role (the source's disjoint `if` chain, written as a `match`), apply the two
capacity gates, and return the oriented `(from, to)` pair or nothing. -/
def resolveConnection (s : GameState) (firstRef secondRef : PortRef) :
    Option (PortRef × PortRef) :=
  match getPort s firstRef, getPort s secondRef with
  | some firstPort, some secondPort =>
      match firstPort.role, secondPort.role with
      | .output, .input =>
          if canAccept s secondRef && canSend s firstRef firstPort then
            some (firstRef, secondRef) else none
      | .input, .output =>
          if canAccept s firstRef && canSend s secondRef secondPort then
            some (secondRef, firstRef) else none
      | .output, .flex =>
          if canAccept s secondRef && canSend s firstRef firstPort then
            some (firstRef, secondRef) else none
      | .flex, .output =>
          if canAccept s firstRef && canSend s secondRef secondPort then
            some (secondRef, firstRef) else none
      | .input, .flex =>
          if canAccept s firstRef && canSend s secondRef secondPort then
            some (secondRef, firstRef) else none
      | .flex, .input =>
          if canAccept s secondRef && canSend s firstRef firstPort then
            some (firstRef, secondRef) else none
      | .flex, .flex =>
          if canAccept s secondRef && canSend s firstRef firstPort then
            some (firstRef, secondRef) else none
      | _, _ => none
  | _, _ => none

/-- `connectionExists(fromRef, toRef)` from `game.js`. -/
def connectionExists (s : GameState) (fromRef toRef : PortRef) : Bool :=
  s.connections.any (fun conn =>
    conn.fromRef.componentId == fromRef.componentId &&
      conn.fromRef.portId == fromRef.portId &&
      conn.toRef.componentId == toRef.componentId &&
      conn.toRef.portId == toRef.portId)

/-- `tryConnect(portRefA, portRefB)`: the second-click path of
`handlePortClick` with `portRefA` as the already selected port — reject
same-component pairs, resolve, reject duplicates, otherwise push the
connection and recompute. -/
def tryConnect (s : GameState) (firstRef secondRef : PortRef) :
    Option Connection × GameState :=
  if firstRef.componentId == secondRef.componentId then (none, s)
  else
    match resolveConnection s firstRef secondRef with
    | none => (none, s)
    | some resolved =>
        if connectionExists s resolved.1 resolved.2 then (none, s)
        else
          let conn : Connection := ⟨s.idCounter + 1, resolved.1, resolved.2⟩
          let s' : GameState :=
            { s with connections := s.connections ++ [conn],
                     idCounter := s.idCounter + 1 }
          let r := computeColors s'.components s'.connections
          (some conn, { s' with components := r.1 })

/-- `n` consecutive `addPort` calls with the given role, threading `nextId`. -/
def addPorts (role : Role) : ℕ → ℕ → List Port × ℕ
  | 0, counter => ([], counter)
  | n + 1, counter =>
      let r := addPorts role n (counter + 1)
      (⟨counter + 1, role⟩ :: r.1, r.2)

/-- `buildPorts` from `game.js`: the role-appropriate port list per kind
(Factory 4 Output; Adder 2 Input + 1 Output; Gradientor 1 Input + 1 Output;
Storage 6 Flex — the left/right split is layout only). -/
def buildPorts (type : CKind) (counter : ℕ) : List Port × ℕ :=
  match type with
  | .factory => addPorts .output 4 counter
  | .adder =>
      let a := addPorts .input 2 counter
      let b := addPorts .output 1 a.2
      (a.1 ++ b.1, b.2)
  | .gradientor =>
      let a := addPorts .input 1 counter
      let b := addPorts .output 1 a.2
      (a.1 ++ b.1, b.2)
  | .storage => addPorts .flex 6 counter

/-- `createComponent(type, options)` from `game.js` (the data part: fresh id
from `nextId`, ports from `buildPorts`, empty storage slots, appended to the
component list; DOM element creation and dragging setup are view glue). -/
def createComponent (s : GameState) (type : CKind) (color : Option Color)
    (mode : Option Mode) : GameState :=
  let cid := s.idCounter + 1
  let pb := buildPorts type cid
  let component : Component := ⟨cid, type, color, mode, pb.1, []⟩
  { s with components := s.components ++ [component], idCounter := pb.2 }

/-- `deleteComponent(componentId)` from `game.js`: no-op for an unknown id;
otherwise drop every connection touching the component, remove the (first)
component with that id, and recompute. -/
def deleteComponent (s : GameState) (componentId : ℕ) : GameState :=
  if s.components.any (fun c => c.id == componentId) then
    let conns := s.connections.filter (fun conn =>
      !(conn.fromRef.componentId == componentId) &&
        !(conn.toRef.componentId == componentId))
    let comps := s.components.eraseP (fun c => c.id == componentId)
    let r := computeColors comps conns
    { s with components := r.1, connections := conns }
  else s

/-- `resetGrid()` from `game.js`: clear everything, then recompute (a no-op on
the empty graph). -/
def resetGrid (s : GameState) : GameState :=
  let r := computeColors [] []
  { s with components := r.1, connections := [] }

/-- The operations the view layer can invoke on the session (§6 of the spec). -/
inductive Op where
  | create (type : CKind) (color : Option Color) (mode : Option Mode)
  | connect (firstRef secondRef : PortRef)
  | delete (componentId : ℕ)
  | reset
  | recompute

/-- One operation as a state transition; `create`, `connect`, `delete` and
`reset` re-run `computeColors` just as their `game.js` handlers do. -/
def applyOp (s : GameState) : Op → GameState
  | .create type color mode =>
      let s' := createComponent s type color mode
      let r := computeColors s'.components s'.connections
      { s' with components := r.1 }
  | .connect firstRef secondRef => (tryConnect s firstRef secondRef).2
  | .delete componentId => deleteComponent s componentId
  | .reset => resetGrid s
  | .recompute =>
      let r := computeColors s.components s.connections
      { s with components := r.1 }

/-- The initial session: no components, no connections, `idCounter = 1`. -/
def initState : GameState := ⟨[], [], 1⟩

/-- States reachable from the initial session by any sequence of operations. -/
inductive Reachable : GameState → Prop where
  | init : Reachable initState
  | step {s : GameState} (h : Reachable s) (op : Op) : Reachable (applyOp s op)

/-- The pure orientation table of `resolveConnection` (its role case structure
with the capacity gates removed): which `(from, to)` pair a role combination
orients to, or none for Output↔Output / Input↔Input. -/
def orientPair (firstRef : PortRef) (firstRole : Role) (secondRef : PortRef)
    (secondRole : Role) : Option (PortRef × PortRef) :=
  match firstRole, secondRole with
  | .output, .input => some (firstRef, secondRef)
  | .input, .output => some (secondRef, firstRef)
  | .output, .flex => some (firstRef, secondRef)
  | .flex, .output => some (secondRef, firstRef)
  | .input, .flex => some (secondRef, firstRef)
  | .flex, .input => some (firstRef, secondRef)
  | .flex, .flex => some (firstRef, secondRef)
  | _, _ => none

/-- Characterization of a successful `resolveConnection`: both ports resolve,
the pair is oriented exactly by the role table, and the destination passed the
sink-capacity gate. -/
theorem resolveConnection_some_iff_gates (s : GameState) (r1 r2 : PortRef)
    (f t : PortRef) (hres : resolveConnection s r1 r2 = some (f, t)) :
    ∃ p1 p2, getPort s r1 = some p1 ∧ getPort s r2 = some p2 ∧
      orientPair r1 p1.role r2 p2.role = some (f, t) ∧
      canAccept s t = true := by
  unfold resolveConnection at hres
  rcases hA : getPort s r1 with _ | p1
  · rw [hA] at hres; exact absurd hres (by simp)
  rcases hB : getPort s r2 with _ | p2
  · rw [hA, hB] at hres; exact absurd hres (by simp)
  rw [hA, hB] at hres
  refine ⟨p1, p2, rfl, rfl, ?_⟩
  repeat' split at hres
  all_goals try exact Option.noConfusion hres
  all_goals
    rename_i hr1 hr2 hcond
  all_goals
    injection hres with hp
  all_goals
    obtain ⟨hf, ht⟩ := Prod.mk.inj hp
  all_goals
    subst hf
  all_goals
    subst ht
  all_goals
    simp only [Bool.and_eq_true] at hcond
  all_goals
    simp_all [orientPair]

/-- If the oriented destination is already fed, `resolveConnection` rejects. -/
theorem resolveConnection_none_of_fed (s : GameState) (r1 r2 : PortRef)
    (p1 p2 : Port) (f t : PortRef)
    (h1 : getPort s r1 = some p1) (h2 : getPort s r2 = some p2)
    (hori : orientPair r1 p1.role r2 p2.role = some (f, t))
    (hacc : canAccept s t = false) :
    resolveConnection s r1 r2 = none := by
  unfold resolveConnection
  rw [h1, h2]
  repeat' split
  all_goals try rfl
  all_goals simp_all [orientPair]

/-- A connection into `t` falsifies the sink-capacity gate. -/
theorem canAccept_eq_false_of_fed (s : GameState) (t : PortRef)
    (h : ∃ conn ∈ s.connections, conn.toRef = t) :
    canAccept s t = false := by
  obtain ⟨conn, hmem, hto⟩ := h
  have hany : s.connections.any (fun conn =>
      conn.toRef.componentId == t.componentId &&
        conn.toRef.portId == t.portId) = true :=
    List.any_eq_true.mpr ⟨conn, hmem, by simp [hto]⟩
  simp [canAccept, hany]

/-- A destination that passes the sink-capacity gate has no duplicate either. -/
theorem connectionExists_eq_false_of_canAccept (s : GameState) (f t : PortRef)
    (hacc : canAccept s t = true) : connectionExists s f t = false := by
  unfold canAccept at hacc
  rw [Bool.not_eq_true'] at hacc
  rw [List.any_eq_false] at hacc
  unfold connectionExists
  rw [List.any_eq_false]
  intro conn hmem hpred
  simp only [Bool.and_eq_true] at hpred
  exact hacc conn hmem
    (by simp only [Bool.and_eq_true]; exact ⟨hpred.1.2, hpred.2⟩)

/-- C4: `tryConnect` rejects — returning no connection and leaving the state
unchanged — every Output↔Output pair, every Input↔Input pair, every
same-component pair, every pair whose oriented destination port already has an
incoming connection, and every pair whose oriented `(from, to)` connection
already exists. -/
theorem tryConnect_rejects (s : GameState) (r1 r2 : PortRef) (p1 p2 : Port)
    (h1 : getPort s r1 = some p1) (h2 : getPort s r2 = some p2)
    (hrej :
      (p1.role = Role.output ∧ p2.role = Role.output) ∨
      (p1.role = Role.input ∧ p2.role = Role.input) ∨
      r1.componentId = r2.componentId ∨
      (∃ f t, orientPair r1 p1.role r2 p2.role = some (f, t) ∧
        ∃ conn ∈ s.connections, conn.toRef = t) ∨
      (∃ f t, orientPair r1 p1.role r2 p2.role = some (f, t) ∧
        ∃ conn ∈ s.connections, conn.fromRef = f ∧ conn.toRef = t)) :
    tryConnect s r1 r2 = (none, s) := by
  by_cases hcid : r1.componentId = r2.componentId
  · simp [tryConnect, hcid]
  · have hcid' : (r1.componentId == r2.componentId) = false := by simp [hcid]
    have hnone : resolveConnection s r1 r2 = none := by
      rcases hrej with ⟨ho1, ho2⟩ | ⟨ho1, ho2⟩ | hsame |
        ⟨f, t, hori, hfed⟩ | ⟨f, t, hori, conn, hmem, hfrom, hto⟩
      · simp [resolveConnection, h1, h2, ho1, ho2]
      · simp [resolveConnection, h1, h2, ho1, ho2]
      · exact absurd hsame hcid
      · exact resolveConnection_none_of_fed s r1 r2 p1 p2 f t h1 h2 hori
          (canAccept_eq_false_of_fed s t hfed)
      · exact resolveConnection_none_of_fed s r1 r2 p1 p2 f t h1 h2 hori
          (canAccept_eq_false_of_fed s t ⟨conn, hmem, hto⟩)
    simp [tryConnect, hcid', hnone]

/-- Test state for the C4 witness: two factories with one Output port each. -/
def c4State : GameState :=
  ⟨[⟨1, .factory, some ⟨255, 0, 0⟩, none, [⟨2, .output⟩], []⟩,
    ⟨3, .factory, some ⟨0, 0, 255⟩, none, [⟨4, .output⟩], []⟩], [], 10⟩

/-- Witness for C4: connecting two factory Output ports is rejected. -/
theorem tryConnect_rejects_witness :
    tryConnect c4State ⟨1, 2⟩ ⟨3, 4⟩ = (none, c4State) :=
  tryConnect_rejects c4State ⟨1, 2⟩ ⟨3, 4⟩ ⟨2, .output⟩ ⟨4, .output⟩
    (by decide) (by decide) (Or.inl ⟨rfl, rfl⟩)

/-- C6: whenever `tryConnect` accepts, the returned connection is oriented by
role regardless of selection order: Output→Input, Output→Flex, Flex→Input, and
first-selected→second-selected for Flex↔Flex. -/
theorem tryConnect_orients_by_role (s s' : GameState) (r1 r2 : PortRef)
    (conn : Connection) (p1 p2 : Port)
    (h : tryConnect s r1 r2 = (some conn, s'))
    (h1 : getPort s r1 = some p1) (h2 : getPort s r2 = some p2) :
    ((p1.role = Role.output ∧ p2.role = Role.input) →
        conn.fromRef = r1 ∧ conn.toRef = r2) ∧
    ((p1.role = Role.input ∧ p2.role = Role.output) →
        conn.fromRef = r2 ∧ conn.toRef = r1) ∧
    ((p1.role = Role.output ∧ p2.role = Role.flex) →
        conn.fromRef = r1 ∧ conn.toRef = r2) ∧
    ((p1.role = Role.flex ∧ p2.role = Role.output) →
        conn.fromRef = r2 ∧ conn.toRef = r1) ∧
    ((p1.role = Role.input ∧ p2.role = Role.flex) →
        conn.fromRef = r2 ∧ conn.toRef = r1) ∧
    ((p1.role = Role.flex ∧ p2.role = Role.input) →
        conn.fromRef = r1 ∧ conn.toRef = r2) ∧
    ((p1.role = Role.flex ∧ p2.role = Role.flex) →
        conn.fromRef = r1 ∧ conn.toRef = r2) := by
  unfold tryConnect at h
  split at h
  · exact absurd h (by simp)
  split at h
  · exact absurd h (by simp)
  rename_i resolved hres
  split at h
  · exact absurd h (by simp)
  obtain ⟨hfst, hsnd⟩ := Prod.mk.inj h
  have hconn : conn = ⟨s.idCounter + 1, resolved.1, resolved.2⟩ :=
    (Option.some.inj hfst).symm
  subst hconn
  obtain ⟨q1, q2, hA, hB, hori, hacc⟩ :=
    resolveConnection_some_iff_gates s r1 r2 resolved.1 resolved.2 (by rw [hres])
  rw [h1] at hA
  rw [h2] at hB
  injection hA with e1
  injection hB with e2
  subst e1
  subst e2
  refine ⟨?_, ?_, ?_, ?_, ?_, ?_, ?_⟩ <;> rintro ⟨ho1, ho2⟩ <;>
    rw [ho1, ho2] at hori <;>
    simp only [orientPair, Option.some.injEq, Prod.mk.injEq] at hori <;>
    obtain ⟨hf, ht⟩ := hori <;> exact ⟨hf.symm, ht.symm⟩

/-- C5: an Adder or Gradientor Output port may source any number of
connections — with no assumption on existing outbound connections from the
source, `tryConnect` into a free Input port on another component succeeds —
but a Factory Output port or a Storage flex port that already sources one
connection is rejected as a source. -/
theorem tryConnect_fanout_rules :
    (∀ (s : GameState) (r1 r2 : PortRef) (p1 p2 : Port) (c : Component),
      getPort s r1 = some p1 → getPort s r2 = some p2 →
      s.components.find? (fun comp => comp.id == r1.componentId) = some c →
      (c.type = CKind.adder ∨ c.type = CKind.gradientor) →
      p1.role = Role.output → p2.role = Role.input →
      r1.componentId ≠ r2.componentId → canAccept s r2 = true →
      (tryConnect s r1 r2).1 = some ⟨s.idCounter + 1, r1, r2⟩) ∧
    (∀ (s : GameState) (r1 r2 : PortRef) (p1 p2 : Port) (c : Component),
      getPort s r1 = some p1 → getPort s r2 = some p2 →
      s.components.find? (fun comp => comp.id == r1.componentId) = some c →
      c.type = CKind.factory → p1.role = Role.output → p2.role = Role.input →
      (∃ conn ∈ s.connections, conn.fromRef = r1) →
      tryConnect s r1 r2 = (none, s)) ∧
    (∀ (s : GameState) (r1 r2 : PortRef) (p1 p2 : Port) (c : Component),
      getPort s r1 = some p1 → getPort s r2 = some p2 →
      s.components.find? (fun comp => comp.id == r1.componentId) = some c →
      c.type = CKind.storage → p1.role = Role.flex → p2.role = Role.input →
      (∃ conn ∈ s.connections, conn.fromRef = r1) →
      tryConnect s r1 r2 = (none, s)) := by
  refine ⟨?_, ?_, ?_⟩
  · intro s r1 r2 p1 p2 c h1 h2 hfind htype hr1 hr2 hcid hacc
    have hsend : canSend s r1 p1 = true := by
      rcases htype with ht | ht <;> simp [canSend, hfind, ht, hr1]
    have hres : resolveConnection s r1 r2 = some (r1, r2) := by
      simp [resolveConnection, h1, h2, hr1, hr2, hacc, hsend]
    have hex : connectionExists s r1 r2 = false :=
      connectionExists_eq_false_of_canAccept s r1 r2 hacc
    have hcid' : (r1.componentId == r2.componentId) = false := by simp [hcid]
    simp [tryConnect, hcid', hres, hex]
  · intro s r1 r2 p1 p2 c h1 h2 hfind htype hr1 hr2 hsrc
    obtain ⟨conn, hmem, hfrom⟩ := hsrc
    have hany : s.connections.any (fun conn =>
        conn.fromRef.componentId == r1.componentId &&
          conn.fromRef.portId == r1.portId) = true :=
      List.any_eq_true.mpr ⟨conn, hmem, by simp [hfrom]⟩
    have hsend : canSend s r1 p1 = false := by
      simp [canSend, hfind, htype, hr1, hany]
    by_cases hcid : r1.componentId = r2.componentId
    · simp [tryConnect, hcid]
    · have hcid' : (r1.componentId == r2.componentId) = false := by simp [hcid]
      have hres : resolveConnection s r1 r2 = none := by
        simp [resolveConnection, h1, h2, hr1, hr2, hsend]
      simp [tryConnect, hcid', hres]
  · intro s r1 r2 p1 p2 c h1 h2 hfind htype hr1 hr2 hsrc
    obtain ⟨conn, hmem, hfrom⟩ := hsrc
    have hany : s.connections.any (fun conn =>
        conn.fromRef.componentId == r1.componentId &&
          conn.fromRef.portId == r1.portId) = true :=
      List.any_eq_true.mpr ⟨conn, hmem, by simp [hfrom]⟩
    have hsend : canSend s r1 p1 = false := by
      simp [canSend, hfind, htype, hr1, hany]
    by_cases hcid : r1.componentId = r2.componentId
    · simp [tryConnect, hcid]
    · have hcid' : (r1.componentId == r2.componentId) = false := by simp [hcid]
      have hres : resolveConnection s r1 r2 = none := by
        simp [resolveConnection, h1, h2, hr1, hr2, hsend]
      simp [tryConnect, hcid', hres]

/-- Test state for the C5 witness, part 1: an adder whose Output already feeds
one gradientor, plus a second free gradientor. -/
def c5StateA : GameState :=
  ⟨[⟨1, .adder, none, none, [⟨2, .input⟩, ⟨3, .input⟩, ⟨4, .output⟩], []⟩,
    ⟨5, .gradientor, none, some .lighten, [⟨6, .input⟩, ⟨7, .output⟩], []⟩,
    ⟨8, .gradientor, none, some .darken, [⟨9, .input⟩, ⟨10, .output⟩], []⟩],
   [⟨20, ⟨1, 4⟩, ⟨5, 6⟩⟩], 30⟩

/-- Test state for the C5 witness, part 2: a factory whose Output already feeds
the adder's Input A. -/
def c5StateB : GameState :=
  ⟨[⟨1, .factory, some ⟨255, 0, 0⟩, none, [⟨2, .output⟩], []⟩,
    ⟨3, .adder, none, none, [⟨4, .input⟩, ⟨5, .input⟩, ⟨6, .output⟩], []⟩],
   [⟨20, ⟨1, 2⟩, ⟨3, 4⟩⟩], 30⟩

/-- Test state for the C5 witness, part 3: a storage flex port already sourcing
into the adder's Input A. -/
def c5StateC : GameState :=
  ⟨[⟨1, .storage, none, none,
      [⟨2, .flex⟩, ⟨3, .flex⟩, ⟨4, .flex⟩, ⟨5, .flex⟩, ⟨6, .flex⟩, ⟨7, .flex⟩],
      []⟩,
    ⟨8, .adder, none, none, [⟨9, .input⟩, ⟨10, .input⟩, ⟨11, .output⟩], []⟩],
   [⟨20, ⟨1, 2⟩, ⟨8, 9⟩⟩], 30⟩

/-- Witness for C5: a second fan-out from an adder Output is accepted, while a
second outbound connection from a factory Output or an already-sourcing
storage flex port is rejected. -/
theorem tryConnect_fanout_rules_witness :
    (tryConnect c5StateA ⟨1, 4⟩ ⟨8, 9⟩).1 = some ⟨31, ⟨1, 4⟩, ⟨8, 9⟩⟩ ∧
      tryConnect c5StateB ⟨1, 2⟩ ⟨3, 5⟩ = (none, c5StateB) ∧
      tryConnect c5StateC ⟨1, 2⟩ ⟨8, 10⟩ = (none, c5StateC) :=
  ⟨tryConnect_fanout_rules.1 c5StateA ⟨1, 4⟩ ⟨8, 9⟩ ⟨4, .output⟩ ⟨9, .input⟩
      ⟨1, .adder, none, none, [⟨2, .input⟩, ⟨3, .input⟩, ⟨4, .output⟩], []⟩
      (by decide) (by decide) (by decide) (Or.inl rfl) rfl rfl (by decide)
      (by decide),
   tryConnect_fanout_rules.2.1 c5StateB ⟨1, 2⟩ ⟨3, 5⟩ ⟨2, .output⟩ ⟨5, .input⟩
      ⟨1, .factory, some ⟨255, 0, 0⟩, none, [⟨2, .output⟩], []⟩
      (by decide) (by decide) (by decide) rfl rfl rfl
      ⟨⟨20, ⟨1, 2⟩, ⟨3, 4⟩⟩, by decide, rfl⟩,
   tryConnect_fanout_rules.2.2 c5StateC ⟨1, 2⟩ ⟨8, 10⟩ ⟨2, .flex⟩ ⟨10, .input⟩
      ⟨1, .storage, none, none,
        [⟨2, .flex⟩, ⟨3, .flex⟩, ⟨4, .flex⟩, ⟨5, .flex⟩, ⟨6, .flex⟩, ⟨7, .flex⟩],
        []⟩
      (by decide) (by decide) (by decide) rfl rfl rfl
      ⟨⟨20, ⟨1, 2⟩, ⟨8, 9⟩⟩, by decide, rfl⟩⟩

/-- Test state for the C6 witness: a red factory and an adder. -/
def c6State : GameState :=
  ⟨[⟨1, .factory, some ⟨255, 0, 0⟩, none, [⟨2, .output⟩], []⟩,
    ⟨3, .adder, none, none, [⟨4, .input⟩, ⟨5, .input⟩, ⟨6, .output⟩], []⟩],
   [], 9⟩

/-- Witness for C6: clicking factory Output then adder Input yields the
connection oriented Output→Input. -/
theorem tryConnect_orients_by_role_witness :
    (Connection.mk 10 ⟨1, 2⟩ ⟨3, 4⟩).fromRef = (⟨1, 2⟩ : PortRef) ∧
      (Connection.mk 10 ⟨1, 2⟩ ⟨3, 4⟩).toRef = (⟨3, 4⟩ : PortRef) :=
  (tryConnect_orients_by_role c6State
      ⟨[⟨1, .factory, some ⟨255, 0, 0⟩, none, [⟨2, .output⟩], []⟩,
        ⟨3, .adder, none, none, [⟨4, .input⟩, ⟨5, .input⟩, ⟨6, .output⟩], []⟩],
       [⟨10, ⟨1, 2⟩, ⟨3, 4⟩⟩], 10⟩
      ⟨1, 2⟩ ⟨3, 4⟩ ⟨10, ⟨1, 2⟩, ⟨3, 4⟩⟩ ⟨2, .output⟩ ⟨4, .input⟩
      (by decide) (by decide) (by decide)).1 ⟨rfl, rfl⟩

/-! ## C2: no port is fed from two sources -/

/-- The system-wide invariant: no two connections share a `to` endpoint. -/
def NoDupTo (conns : List Connection) : Prop :=
  conns.Pairwise (fun a b => a.toRef ≠ b.toRef)

/-- Pairwise-distinct `to` endpoints bound the inbound count of any port by 1. -/
theorem length_filter_toRef_le_one (conns : List Connection)
    (hnd : NoDupTo conns) (r : PortRef) :
    (conns.filter (fun conn => conn.toRef == r)).length ≤ 1 := by
  induction conns with
  | nil => simp
  | cons c cs ih =>
      rw [NoDupTo, List.pairwise_cons] at hnd
      by_cases hc : (c.toRef == r) = true
      · have hr : c.toRef = r := by simpa using hc
        have hnil : cs.filter (fun conn => conn.toRef == r) = [] := by
          rw [List.filter_eq_nil_iff]
          intro x hx hpx
          have hxr : x.toRef = r := by simpa using hpx
          exact hnd.1 x hx (hr.trans hxr.symm)
        simp [List.filter_cons, hc, hnil]
      · have := ih hnd.2
        simpa [List.filter_cons, hc] using this

/-- A destination that passes the sink gate is not yet fed by any connection. -/
theorem canAccept_true_not_fed (s : GameState) (t : PortRef)
    (hacc : canAccept s t = true) :
    ∀ conn ∈ s.connections, conn.toRef ≠ t := by
  intro conn hmem heq
  have hfalse := canAccept_eq_false_of_fed s t ⟨conn, hmem, heq⟩
  rw [hacc] at hfalse
  simp at hfalse

/-- `tryConnect` preserves the unique-feed invariant: the only connection it
can add has a destination that passed the sink-capacity gate. -/
theorem tryConnect_preserves_noDupTo (s : GameState) (r1 r2 : PortRef)
    (h : NoDupTo s.connections) :
    NoDupTo ((tryConnect s r1 r2).2).connections := by
  unfold tryConnect
  split
  · exact h
  split
  · exact h
  rename_i resolved hres
  split
  · exact h
  show NoDupTo (s.connections ++ [⟨s.idCounter + 1, resolved.1, resolved.2⟩])
  obtain ⟨q1, q2, hA, hB, hori, hacc⟩ :=
    resolveConnection_some_iff_gates s r1 r2 resolved.1 resolved.2 (by rw [hres])
  rw [NoDupTo, List.pairwise_append]
  refine ⟨h, by simp, ?_⟩
  intro a ha b hb
  have hb' : b = ⟨s.idCounter + 1, resolved.1, resolved.2⟩ := by simpa using hb
  subst hb'
  exact canAccept_true_not_fed s resolved.2 hacc a ha

/-- Every operation preserves the unique-feed invariant. -/
theorem reachable_noDupTo (s : GameState) (h : Reachable s) :
    NoDupTo s.connections := by
  induction h with
  | init => simp [initState, NoDupTo]
  | step hs op ih =>
      rename_i s'
      cases op with
      | create type color mode => exact ih
      | connect firstRef secondRef =>
          exact tryConnect_preserves_noDupTo s' firstRef secondRef ih
      | delete componentId =>
          show NoDupTo (deleteComponent s' componentId).connections
          unfold deleteComponent
          split
          · exact List.Pairwise.filter _ ih
          · exact ih
      | reset => simp [applyOp, resetGrid, NoDupTo]
      | recompute => exact ih

/-- C2: in every state reachable by any sequence of operations, each port is
the `to` endpoint of at most one connection — no port is fed from two
sources. -/
theorem reachable_at_most_one_inbound (s : GameState) (h : Reachable s)
    (r : PortRef) :
    (s.connections.filter (fun conn => conn.toRef == r)).length ≤ 1 :=
  length_filter_toRef_le_one s.connections (reachable_noDupTo s h) r

/-- Witness for C2: after creating a factory and an adder and connecting the
factory's first Output to the adder's Input A, the adder's Input A has exactly
one inbound connection. -/
theorem reachable_at_most_one_inbound_witness :
    ((applyOp (applyOp (applyOp initState
        (Op.create .factory (some ⟨255, 0, 0⟩) none))
        (Op.create .adder none none))
        (Op.connect ⟨2, 3⟩ ⟨7, 8⟩)).connections.filter
      (fun conn => conn.toRef == (⟨7, 8⟩ : PortRef))).length ≤ 1 :=
  reachable_at_most_one_inbound _
    (Reachable.step (Reachable.step (Reachable.step Reachable.init _) _) _)
    ⟨7, 8⟩

/-! ## No-change rounds: a round that reports no change touched nothing -/

/-- `colorsEqual` decides equality of optional colors. -/
theorem colorsEqual_iff (a b : Option Color) : colorsEqual a b = true ↔ a = b := by
  cases a <;> cases b <;> simp [colorsEqual]
  rename_i x y
  cases x
  cases y
  simp [Color.mk.injEq, and_assoc]

/-- A `setPortOutput` that reports no change left the map alone, and the value
was already the stored one. -/
theorem setPortOutput_false (m : PMap) (k : PortRef) (v : Option Color)
    (h : (setPortOutput m k v).2 = false) :
    (setPortOutput m k v).1 = m ∧ mapGetD m k = v := by
  unfold setPortOutput at h ⊢
  by_cases hce : colorsEqual (mapGetD m k) v = true
  · exact ⟨by simp [hce], (colorsEqual_iff _ _).mp hce⟩
  · simp [hce] at h

/-- An emit loop that reports no change left the map alone, and every emitted
port already held the emitted value. -/
theorem emitOutputs_false (cid : ℕ) (color : Option Color) :
    ∀ (ports : List Port) (m : PMap),
      (emitOutputs cid color ports m).2 = false →
      (emitOutputs cid color ports m).1 = m ∧
        ∀ p ∈ ports, mapGetD m ⟨cid, p.id⟩ = color := by
  intro ports
  induction ports with
  | nil => intro m _; exact ⟨rfl, by simp⟩
  | cons p rest ih =>
      intro m h
      rw [emitOutputs] at h ⊢
      simp only [Bool.or_eq_false_iff] at h
      obtain ⟨h1, h2⟩ := h
      obtain ⟨hm, hv⟩ := setPortOutput_false m ⟨cid, p.id⟩ color h1
      rw [hm] at h2 ⊢
      obtain ⟨hm', hall⟩ := ih m h2
      refine ⟨by simpa using hm', ?_⟩
      intro q hq
      rcases List.mem_cons.mp hq with hq | hq
      · subst hq; exact hv
      · exact hall q hq

/-- A storage slot loop that reports no change left the slots alone. -/
theorem storagePhase1_false (conns : List Connection) (cid : ℕ) (m : PMap) :
    ∀ (ports : List Port) (slots : List (ℕ × Option Color)),
      (storagePhase1 conns cid m ports slots).2 = false →
      (storagePhase1 conns cid m ports slots).1 = slots := by
  intro ports
  induction ports with
  | nil => intro slots _; rfl
  | cons p rest ih =>
      intro slots h
      rw [storagePhase1] at h ⊢
      by_cases hflex : (p.role == Role.flex) = true
      · rw [if_pos hflex] at h ⊢
        by_cases hce : colorsEqual (slotGet slots p.id)
            (inboundRead conns cid m p.id) = true
        · rw [if_pos hce] at h ⊢
          exact ih slots h
        · rw [if_neg hce] at h
          simp at h
      · rw [if_neg hflex] at h ⊢
        exact ih slots h

/-- A storage emit loop that reports no change left the map alone and every
flex port already emitted its stored value. -/
theorem storagePhase2_false (cid : ℕ) (slots : List (ℕ × Option Color)) :
    ∀ (ports : List Port) (m : PMap),
      (storagePhase2 cid slots ports m).2 = false →
      (storagePhase2 cid slots ports m).1 = m := by
  intro ports
  induction ports with
  | nil => intro m _; rfl
  | cons p rest ih =>
      intro m h
      rw [storagePhase2] at h ⊢
      by_cases hflex : (p.role == Role.flex) = true
      · rw [if_pos hflex] at h ⊢
        dsimp only at h ⊢
        simp only [Bool.or_eq_false_iff] at h
        obtain ⟨h1, h2⟩ := h
        obtain ⟨hm, _⟩ := setPortOutput_false m ⟨cid, p.id⟩ (slotGet slots p.id) h1
        rw [hm] at h2 ⊢
        exact ih m h2
      · rw [if_neg hflex] at h ⊢
        exact ih m h

/-- A component turn that reports no change returned the component and the map
unchanged. -/
theorem processComponent_false (conns : List Connection) (m : PMap)
    (c : Component) (h : (processComponent conns m c).2.2 = false) :
    processComponent conns m c = (c, m, false) := by
  unfold processComponent at h ⊢
  cases htype : c.type <;> (try rw [htype] at h) <;> dsimp only at h ⊢
  · -- factory
    unfold processFactory at h ⊢
    obtain ⟨hm, _⟩ := emitOutputs_false c.id c.color
      (c.ports.filter (fun p => p.role == Role.output)) m h
    rw [hm, h]
  · -- adder
    unfold processAdder at h ⊢
    dsimp only at h ⊢
    obtain ⟨hm, _⟩ := emitOutputs_false c.id _ _ m h
    rw [hm, h]
  · -- gradientor
    unfold processGradientor at h ⊢
    dsimp only at h ⊢
    rcases hop : c.ports.find? (fun p => p.role == Role.output) with _ | op <;>
      rw [hop] at h ⊢
    all_goals dsimp only at h ⊢
    all_goals obtain ⟨hm, _⟩ := setPortOutput_false m ⟨c.id, op.id⟩ _ h
    all_goals rw [hm, h]
  · -- storage
    unfold processStorage at h ⊢
    dsimp only at h ⊢
    simp only [Bool.or_eq_false_iff] at h
    obtain ⟨h1, h2⟩ := h
    have hs := storagePhase1_false conns c.id m c.ports c.storageSlots h1
    rw [hs] at h2 ⊢
    have hm := storagePhase2_false c.id c.storageSlots c.ports m h2
    rw [hm, h1, h2]
    rfl

/-- A round that reports no change processed every component against the final
map with no change, and returned everything unchanged. -/
theorem runPass_false (conns : List Connection) :
    ∀ (comps : List Component) (m : PMap),
      (runPass conns comps m).2.2 = false →
      (∀ c ∈ comps, (processComponent conns m c).2.2 = false) ∧
        runPass conns comps m = (comps, m, false) := by
  intro comps
  induction comps with
  | nil => intro m _; exact ⟨by simp, rfl⟩
  | cons c cs ih =>
      intro m h
      rw [runPass] at h ⊢
      simp only [Bool.or_eq_false_iff] at h
      obtain ⟨h1, h2⟩ := h
      have hc := processComponent_false conns m c h1
      rw [hc] at h2 ⊢
      obtain ⟨hall, hrest⟩ := ih m h2
      rw [hrest]
      refine ⟨?_, rfl⟩
      intro d hd
      rcases List.mem_cons.mp hd with hd | hd
      · subst hd; exact h1
      · exact hall d hd

/-- C1 (amended): whenever `computeColors` converged (one more round would
change nothing), every well-formed Adder's Output port in the final
port-output map emits `mixColors` of the two colors its Input ports read from
their inbound connections' source ports, and emits absent if either input is
unconnected or its source is absent.  (Without the convergence hypothesis the
property fails when the 8-round budget is exhausted, see the
counterexample.) -/
theorem computeColors_adder_converged (comps : List Component)
    (conns : List Connection) (c : Component) (a b o : ℕ)
    (hconv : (runPass conns (computeColors comps conns).1
        (computeColors comps conns).2).2.2 = false)
    (hc : c ∈ (computeColors comps conns).1)
    (ht : c.type = CKind.adder)
    (hp : c.ports = [⟨a, .input⟩, ⟨b, .input⟩, ⟨o, .output⟩]) :
    mapGetD (computeColors comps conns).2 ⟨c.id, o⟩ =
      (match inboundRead conns c.id (computeColors comps conns).2 a,
             inboundRead conns c.id (computeColors comps conns).2 b with
       | some x, some y => some (mixColors x y)
       | _, _ => none) := by
  have hproc := (runPass_false conns (computeColors comps conns).1
      (computeColors comps conns).2 hconv).1 c hc
  unfold processComponent at hproc
  rw [ht] at hproc
  dsimp only at hproc
  unfold processAdder at hproc
  rw [hp] at hproc
  have hfin : (([⟨a, .input⟩, ⟨b, .input⟩, ⟨o, .output⟩] : List Port).filter
      (fun p => p.role == Role.input)) = [⟨a, .input⟩, ⟨b, .input⟩] := rfl
  have hfout : (([⟨a, .input⟩, ⟨b, .input⟩, ⟨o, .output⟩] : List Port).filter
      (fun p => p.role == Role.output)) = [⟨o, .output⟩] := rfl
  rw [hfin, hfout] at hproc
  dsimp only at hproc
  have hout := (emitOutputs_false c.id _ _ _ hproc).2 ⟨o, .output⟩ (by simp)
  rw [hout]
  rcases hra : inboundRead conns c.id (computeColors comps conns).2 a with _ | x <;>
    rcases hrb : inboundRead conns c.id (computeColors comps conns).2 b with _ | y <;>
    simp [hra, hrb, List.reduceOption]

/-- Test state for the C1 witness: a red factory feeding only Input A of an
adder; evaluation converges and the Output emits absent. -/
def c1WitComps : List Component :=
  [⟨1, .factory, some ⟨255, 0, 0⟩, none,
    [⟨2, .output⟩, ⟨3, .output⟩, ⟨4, .output⟩, ⟨5, .output⟩], []⟩,
   ⟨6, .adder, none, none, [⟨7, .input⟩, ⟨8, .input⟩, ⟨9, .output⟩], []⟩]

/-- Connections for the C1 witness. -/
def c1WitConns : List Connection := [⟨20, ⟨1, 2⟩, ⟨6, 7⟩⟩]

/-- Witness for C1: on the converging factory→adder state, the theorem applies
and the adder Output emits per the read-both-inputs rule. -/
theorem computeColors_adder_converged_witness :
    mapGetD (computeColors c1WitComps c1WitConns).2 ⟨6, 9⟩ =
      (match inboundRead c1WitConns 6 (computeColors c1WitComps c1WitConns).2 7,
             inboundRead c1WitConns 6 (computeColors c1WitComps c1WitConns).2 8 with
       | some x, some y => some (mixColors x y)
       | _, _ => none) :=
  computeColors_adder_converged c1WitComps c1WitConns
    ⟨6, .adder, none, none, [⟨7, .input⟩, ⟨8, .input⟩, ⟨9, .output⟩], []⟩
    7 8 9 (by decide) (by decide) rfl rfl

/-- C1 counterexample components: an adder first in evaluation order, then a
7-gradientor brightener chain in reverse topological order, then two red
factories.  One round advances the wave one gradientor, so the value reaches
the adder's Input A source only in round 8, after the adder's turn. -/
def c1Pipeline : List Component :=
  [⟨1, .adder, none, none, [⟨2, .input⟩, ⟨3, .input⟩, ⟨4, .output⟩], []⟩,
   ⟨17, .gradientor, none, some .lighten, [⟨34, .input⟩, ⟨35, .output⟩], []⟩,
   ⟨16, .gradientor, none, some .lighten, [⟨32, .input⟩, ⟨33, .output⟩], []⟩,
   ⟨15, .gradientor, none, some .lighten, [⟨30, .input⟩, ⟨31, .output⟩], []⟩,
   ⟨14, .gradientor, none, some .lighten, [⟨28, .input⟩, ⟨29, .output⟩], []⟩,
   ⟨13, .gradientor, none, some .lighten, [⟨26, .input⟩, ⟨27, .output⟩], []⟩,
   ⟨12, .gradientor, none, some .lighten, [⟨24, .input⟩, ⟨25, .output⟩], []⟩,
   ⟨11, .gradientor, none, some .lighten, [⟨22, .input⟩, ⟨23, .output⟩], []⟩,
   ⟨50, .factory, some ⟨255, 0, 0⟩, none,
    [⟨51, .output⟩, ⟨52, .output⟩, ⟨53, .output⟩, ⟨54, .output⟩], []⟩,
   ⟨60, .factory, some ⟨255, 0, 0⟩, none,
    [⟨61, .output⟩, ⟨62, .output⟩, ⟨63, .output⟩, ⟨64, .output⟩], []⟩]

/-- C1 counterexample connections: factory 50 → G11 → G12 → … → G17 → adder
Input A; factory 60 → adder Input B. -/
def c1Conns : List Connection :=
  [⟨70, ⟨50, 51⟩, ⟨11, 22⟩⟩,
   ⟨71, ⟨11, 23⟩, ⟨12, 24⟩⟩,
   ⟨72, ⟨12, 25⟩, ⟨13, 26⟩⟩,
   ⟨73, ⟨13, 27⟩, ⟨14, 28⟩⟩,
   ⟨74, ⟨14, 29⟩, ⟨15, 30⟩⟩,
   ⟨75, ⟨15, 31⟩, ⟨16, 32⟩⟩,
   ⟨76, ⟨16, 33⟩, ⟨17, 34⟩⟩,
   ⟨77, ⟨17, 35⟩, ⟨1, 2⟩⟩,
   ⟨78, ⟨60, 61⟩, ⟨1, 3⟩⟩]

/-- C1 counterexample: after `recompute()` on the pipeline state the round
budget is exhausted mid-propagation; both adder Inputs read a color from
their sources in the final port-output map, yet the Output emits absent —
not `mixColors` of the two reads.  The claim's iff fails as stated. -/
theorem computeColors_adder_counterexample :
    (inboundRead c1Conns 1 (computeColors c1Pipeline c1Conns).2 2).isSome = true ∧
      (inboundRead c1Conns 1 (computeColors c1Pipeline c1Conns).2 3).isSome = true ∧
      mapGetD (computeColors c1Pipeline c1Conns).2 ⟨1, 4⟩ = none ∧
      mapGetD (computeColors c1Pipeline c1Conns).2 ⟨1, 4⟩ ≠
        (match inboundRead c1Conns 1 (computeColors c1Pipeline c1Conns).2 2,
               inboundRead c1Conns 1 (computeColors c1Pipeline c1Conns).2 3 with
         | some x, some y => some (mixColors x y)
         | _, _ => none) := by
  refine ⟨?_, ?_, ?_, ?_⟩ <;> decide

/-! ## Storage slots across rounds -/

theorem slotGet_slotSet_self (slots : List (ℕ × Option Color)) (pid : ℕ)
    (v : Option Color) : slotGet (slotSet slots pid v) pid = v := by
  simp [slotGet, slotSet]

theorem slotGet_filter_ne (q pid : ℕ) (h : q ≠ pid) :
    ∀ slots : List (ℕ × Option Color),
      slotGet (slots.filter (fun e => !(e.1 == q))) pid = slotGet slots pid := by
  intro slots
  induction slots with
  | nil => rfl
  | cons e es ih =>
      rw [List.filter_cons]
      by_cases he : (e.1 == q) = true
      · have hne : (e.1 == pid) = false := by
          have : e.1 = q := by simpa using he
          simp [this, h]
        rw [if_neg (by simp [he])]
        rw [ih]
        unfold slotGet
        rw [List.find?_cons_of_neg _ (by simp [hne])]
      · rw [if_pos (by simp [he])]
        unfold slotGet at ih ⊢
        by_cases hp : (e.1 == pid) = true
        · rw [List.find?_cons_of_pos _ (by simp [hp]),
            List.find?_cons_of_pos _ (by simp [hp])]
        · rw [List.find?_cons_of_neg _ (by simp [hp]),
            List.find?_cons_of_neg _ (by simp [hp])]
          exact ih

theorem slotGet_slotSet_ne (slots : List (ℕ × Option Color)) (q pid : ℕ)
    (v : Option Color) (h : q ≠ pid) :
    slotGet (slotSet slots q v) pid = slotGet slots pid := by
  unfold slotSet
  unfold slotGet
  rw [List.find?_cons_of_neg _ (by simp [h])]
  exact slotGet_filter_ne q pid h slots

/-- After the slot-update loop, a processed flex port's slot equals its inbound
read (the value just stored, or the already-equal held value). -/
theorem storagePhase1_slot_preserve (conns : List Connection) (cid : ℕ)
    (m : PMap) :
    ∀ (ports : List Port) (slots : List (ℕ × Option Color)) (pid : ℕ),
      slotGet slots pid = inboundRead conns cid m pid →
      slotGet (storagePhase1 conns cid m ports slots).1 pid =
        inboundRead conns cid m pid := by
  intro ports
  induction ports with
  | nil => intro slots pid h; exact h
  | cons q rest ih =>
      intro slots pid h
      rw [storagePhase1]
      by_cases hflex : (q.role == Role.flex) = true
      · rw [if_pos hflex]
        by_cases hce : colorsEqual (slotGet slots q.id)
            (inboundRead conns cid m q.id) = true
        · rw [if_pos hce]
          exact ih slots pid h
        · rw [if_neg hce]
          dsimp only
          by_cases hq : q.id = pid
          · subst hq
            exact ih _ q.id (by rw [slotGet_slotSet_self])
          · exact ih _ pid (by rw [slotGet_slotSet_ne _ _ _ _ hq]; exact h)
      · rw [if_neg hflex]
        exact ih slots pid h

/-- After the slot-update loop, every flex port in the processed list holds
exactly its inbound read. -/
theorem storagePhase1_slot_mem (conns : List Connection) (cid : ℕ) (m : PMap) :
    ∀ (ports : List Port) (slots : List (ℕ × Option Color)) (p : Port),
      p ∈ ports → p.role = Role.flex →
      slotGet (storagePhase1 conns cid m ports slots).1 p.id =
        inboundRead conns cid m p.id := by
  intro ports
  induction ports with
  | nil => intro slots p hmem; exact absurd hmem (by simp)
  | cons q rest ih =>
      intro slots p hmem hrole
      rcases List.mem_cons.mp hmem with hpq | hmem'
      · subst hpq
        rw [storagePhase1, if_pos (by simp [hrole])]
        by_cases hce : colorsEqual (slotGet slots p.id)
            (inboundRead conns cid m p.id) = true
        · rw [if_pos hce]
          exact storagePhase1_slot_preserve conns cid m rest slots p.id
            ((colorsEqual_iff _ _).mp hce)
        · rw [if_neg hce]
          dsimp only
          exact storagePhase1_slot_preserve conns cid m rest _ p.id
            (by rw [slotGet_slotSet_self])
      · rw [storagePhase1]
        by_cases hflex : (q.role == Role.flex) = true
        · rw [if_pos hflex]
          by_cases hce : colorsEqual (slotGet slots q.id)
              (inboundRead conns cid m q.id) = true
          · rw [if_pos hce]; exact ih slots p hmem' hrole
          · rw [if_neg hce]; exact ih _ p hmem' hrole
        · rw [if_neg hflex]; exact ih slots p hmem' hrole

/-! ## Component skeletons: everything but the storage slots -/

/-- The slot-free part of a component: id, kind, color, mode and ports. -/
def skel (c : Component) : ℕ × CKind × Option Color × Option Mode × List Port :=
  (c.id, c.type, c.color, c.mode, c.ports)

theorem skel_fields {c c' : Component} (h : skel c = skel c') :
    c.id = c'.id ∧ c.type = c'.type ∧ c.color = c'.color ∧
      c.mode = c'.mode ∧ c.ports = c'.ports := by
  unfold skel at h
  simpa using h

/-- A component turn never changes the component's skeleton (only storage
slots can mutate). -/
theorem processComponent_skel (conns : List Connection) (m : PMap)
    (c : Component) : skel (processComponent conns m c).1 = skel c := by
  unfold processComponent
  cases c.type <;> rfl

/-- A component turn for a storage container rewrites exactly the slots
computed by the update loop. -/
theorem processComponent_storage_slots (conns : List Connection) (m : PMap)
    (c : Component) (ht : c.type = CKind.storage) :
    (processComponent conns m c).1.storageSlots =
      (storagePhase1 conns c.id m c.ports c.storageSlots).1 := by
  unfold processComponent
  rw [ht]
  rfl

/-- Element-wise view of a round: the component at index `i` is the processed
original, against the map as it stood at its turn. -/
theorem runPass_getElem (conns : List Connection) :
    ∀ (comps : List Component) (m : PMap) (i : ℕ) (c : Component),
      comps[i]? = some c →
      ∃ m', (runPass conns comps m).1[i]? =
        some (processComponent conns m' c).1 := by
  intro comps
  induction comps with
  | nil => intro m i c hc; simp at hc
  | cons d ds ih =>
      intro m i c hc
      rw [runPass]
      cases i with
      | zero =>
          simp only [List.getElem?_cons_zero, Option.some.injEq] at hc
          subst hc
          exact ⟨m, by simp⟩
      | succ j =>
          simp only [List.getElem?_cons_succ] at hc
          obtain ⟨m', hm'⟩ := ih (processComponent conns m d).2.1 j c hc
          exact ⟨m', by simpa using hm'⟩

/-- One round resets an unconnected flex port's held slot to its inbound read,
which is absent. -/
theorem runPass_unconnected_slot (conns : List Connection)
    (comps : List Component) (m : PMap) (i : ℕ) (c : Component) (p : Port)
    (hc : comps[i]? = some c) (ht : c.type = CKind.storage)
    (hp : p ∈ c.ports) (hrole : p.role = Role.flex)
    (hno : findInbound conns c.id p.id = none) :
    ∃ c', (runPass conns comps m).1[i]? = some c' ∧ skel c' = skel c ∧
      slotGet c'.storageSlots p.id = none := by
  obtain ⟨m', heq⟩ := runPass_getElem conns comps m i c hc
  refine ⟨(processComponent conns m' c).1, heq,
    processComponent_skel conns m' c, ?_⟩
  rw [processComponent_storage_slots conns m' c ht]
  rw [storagePhase1_slot_mem conns c.id m' c.ports c.storageSlots p hp hrole]
  unfold inboundRead
  rw [hno]

/-- The bounded loop keeps an unconnected flex port's held slot absent. -/
theorem computeLoop_unconnected_slot (conns : List Connection) (p : Port) :
    ∀ (fuel : ℕ) (comps : List Component) (m : PMap) (i : ℕ) (c : Component),
      comps[i]? = some c → c.type = CKind.storage → p ∈ c.ports →
      p.role = Role.flex → findInbound conns c.id p.id = none →
      slotGet c.storageSlots p.id = none →
      ∃ c', (computeLoop conns fuel comps m).1[i]? = some c' ∧
        slotGet c'.storageSlots p.id = none := by
  intro fuel
  induction fuel with
  | zero => intro comps m i c hc _ _ _ _ hslot; exact ⟨c, hc, hslot⟩
  | succ fuel ih =>
      intro comps m i c hc ht hp hrole hno _
      rw [computeLoop]
      obtain ⟨c₁, heq, hskel, hslot₁⟩ :=
        runPass_unconnected_slot conns comps m i c p hc ht hp hrole hno
      obtain ⟨hid, htype, _, _, hports⟩ := skel_fields hskel
      by_cases hb : (runPass conns comps m).2.2 = true
      · rw [if_pos hb]
        exact ih (runPass conns comps m).1 (runPass conns comps m).2.1 i c₁
          heq (htype.trans ht) (hports ▸ hp) hrole (hid ▸ hno) hslot₁
      · rw [if_neg hb]
        exact ⟨c₁, heq, hslot₁⟩

/-- C3 (amended): a Storage flex port's held color is mutated exactly when the
value read for it — absent when the port has no incoming connection — differs
from the held value.  In particular `recompute()` sets the held color of every
flex port with no incoming connection to absent: it is left unchanged
precisely when it already held nothing.  (The original claim, that an
unconnected port's held color always persists, fails: see the
counterexample.) -/
theorem computeColors_unconnected_flex_slot (comps : List Component)
    (conns : List Connection) (i : ℕ) (c : Component) (p : Port)
    (hc : comps[i]? = some c) (ht : c.type = CKind.storage)
    (hp : p ∈ c.ports) (hrole : p.role = Role.flex)
    (hno : findInbound conns c.id p.id = none) :
    ∃ c', (computeColors comps conns).1[i]? = some c' ∧
      slotGet c'.storageSlots p.id = none := by
  rw [computeColors]
  have h8 : (8 : ℕ) = 7 + 1 := rfl
  rw [h8, computeLoop]
  obtain ⟨c₁, heq, hskel, hslot₁⟩ :=
    runPass_unconnected_slot conns comps [] i c p hc ht hp hrole hno
  obtain ⟨hid, htype, _, _, hports⟩ := skel_fields hskel
  by_cases hb : (runPass conns comps []).2.2 = true
  · rw [if_pos hb]
    exact computeLoop_unconnected_slot conns p 7 (runPass conns comps []).1
      (runPass conns comps []).2.1 i c₁ heq (htype.trans ht) (hports ▸ hp)
      hrole (hid ▸ hno) hslot₁
  · rw [if_neg hb]
    exact ⟨c₁, heq, hslot₁⟩

/-- Test state for C3: one storage container, no connections, with a red color
held in the slot of its first flex port (as left behind by a now-deleted
feed). -/
def c3State : List Component :=
  [⟨1, .storage, none, none,
    [⟨2, .flex⟩, ⟨3, .flex⟩, ⟨4, .flex⟩, ⟨5, .flex⟩, ⟨6, .flex⟩, ⟨7, .flex⟩],
    [(2, some ⟨255, 0, 0⟩)]⟩]

/-- C3 counterexample: the unconnected flex port held red before `recompute()`
and holds nothing afterwards — the held color did not persist. -/
theorem computeColors_storage_counterexample :
    c3State.map (fun c => slotGet c.storageSlots 2) = [some ⟨255, 0, 0⟩] ∧
      (computeColors c3State []).1.map (fun c => slotGet c.storageSlots 2) =
        [none] := by
  constructor
  · decide
  · decide

/-- Witness for C3 (amended): the theorem applies to the held-red state and
yields the port's held color reset to absent. -/
theorem computeColors_unconnected_flex_slot_witness :
    ∃ c', (computeColors c3State []).1[0]? = some c' ∧
      slotGet c'.storageSlots 2 = none :=
  computeColors_unconnected_flex_slot c3State [] 0
    ⟨1, .storage, none, none,
      [⟨2, .flex⟩, ⟨3, .flex⟩, ⟨4, .flex⟩, ⟨5, .flex⟩, ⟨6, .flex⟩, ⟨7, .flex⟩],
      [(2, some ⟨255, 0, 0⟩)]⟩
    ⟨2, .flex⟩ (by decide) rfl (by decide) rfl rfl

/-! ## C9: idempotence of `recompute` -/

/-- The storage emit loop only reads slots through `slotGet` on flex ports. -/
theorem storagePhase2_congr (cid : ℕ) :
    ∀ (ports : List Port) (m : PMap)
      (slots1 slots2 : List (ℕ × Option Color)),
      (∀ p ∈ ports, p.role = Role.flex →
        slotGet slots1 p.id = slotGet slots2 p.id) →
      storagePhase2 cid slots1 ports m = storagePhase2 cid slots2 ports m := by
  intro ports
  induction ports with
  | nil => intro m slots1 slots2 _; rfl
  | cons p rest ih =>
      intro m slots1 slots2 h
      rw [storagePhase2, storagePhase2]
      by_cases hflex : (p.role == Role.flex) = true
      · rw [if_pos hflex, if_pos hflex]
        dsimp only
        rw [h p (List.mem_cons_self p rest) (by simpa using hflex)]
        rw [ih _ slots1 slots2 (fun q hq hrole => h q (List.mem_cons_of_mem p hq) hrole)]
      · rw [if_neg hflex, if_neg hflex]
        exact ih m slots1 slots2 (fun q hq hrole => h q (List.mem_cons_of_mem p hq) hrole)

/-- A component turn writes the same port-output map for any two components
with the same skeleton: held storage slots never influence the map, because a
flex port emits exactly the value it just read. -/
theorem processComponent_map_congr (conns : List Connection) (m : PMap)
    (c c' : Component) (h : skel c = skel c') :
    (processComponent conns m c).2.1 = (processComponent conns m c').2.1 := by
  obtain ⟨hid, htype, hcolor, hmode, hports⟩ := skel_fields h
  unfold processComponent
  rw [← htype]
  cases ht : c.type <;> dsimp only
  · unfold processFactory
    rw [hid, hcolor, hports]
  · unfold processAdder
    dsimp only
    rw [hid, hports]
  · unfold processGradientor
    dsimp only
    rw [hid, hports, hmode]
  · unfold processStorage
    dsimp only
    rw [← hid, ← hports]
    have hcongr := storagePhase2_congr c.id c.ports m
      (storagePhase1 conns c.id m c.ports c.storageSlots).1
      (storagePhase1 conns c.id m c.ports c'.storageSlots).1
      (fun p hp hrole => by
        rw [storagePhase1_slot_mem conns c.id m c.ports c.storageSlots p hp hrole,
          storagePhase1_slot_mem conns c.id m c.ports c'.storageSlots p hp hrole])
    rw [hcongr]

/-- A round writes the same port-output map for any two component lists with
the same skeletons. -/
theorem runPass_map_congr (conns : List Connection) :
    ∀ (comps comps' : List Component) (m : PMap),
      comps.map skel = comps'.map skel →
      (runPass conns comps m).2.1 = (runPass conns comps' m).2.1 := by
  intro comps
  induction comps with
  | nil =>
      intro comps' m hmap
      cases comps' with
      | nil => rfl
      | cons d ds => simp at hmap
  | cons c cs ih =>
      intro comps' m hmap
      cases comps' with
      | nil => simp at hmap
      | cons d ds =>
          simp only [List.map_cons, List.cons.injEq] at hmap
          obtain ⟨hh, htl⟩ := hmap
          rw [runPass, runPass]
          dsimp only
          rw [processComponent_map_congr conns m c d hh]
          exact ih ds (processComponent conns m d).2.1 htl

/-- A round preserves the skeleton list. -/
theorem runPass_skel_map (conns : List Connection) :
    ∀ (comps : List Component) (m : PMap),
      (runPass conns comps m).1.map skel = comps.map skel := by
  intro comps
  induction comps with
  | nil => intro m; rfl
  | cons c cs ih =>
      intro m
      rw [runPass]
      dsimp only
      rw [List.map_cons, List.map_cons, processComponent_skel, ih]

/-- Once a round leaves the map unchanged for some skeleton list, the bounded
loop never moves the map again. -/
theorem computeLoop_stable (conns : List Connection) :
    ∀ (fuel : ℕ) (comps compsF : List Component) (m : PMap),
      comps.map skel = compsF.map skel →
      (runPass conns compsF m).2.1 = m →
      (computeLoop conns fuel comps m).2 = m := by
  intro fuel
  induction fuel with
  | zero => intro comps compsF m _ _; rfl
  | succ fuel ih =>
      intro comps compsF m hmap hfix
      rw [computeLoop]
      have hm : (runPass conns comps m).2.1 = m :=
        (runPass_map_congr conns comps compsF m hmap).trans hfix
      by_cases hb : (runPass conns comps m).2.2 = true
      · rw [if_pos hb, hm]
        exact ih (runPass conns comps m).1 compsF m
          ((runPass_skel_map conns comps m).trans hmap) hfix
      · rw [if_neg hb]
        exact hm

/-- The final port-output map of the bounded loop depends only on the
skeletons of the starting components, not on their held storage slots. -/
theorem computeLoop_map_congr (conns : List Connection) :
    ∀ (fuel : ℕ) (comps comps' : List Component) (m : PMap),
      comps.map skel = comps'.map skel →
      (computeLoop conns fuel comps m).2 = (computeLoop conns fuel comps' m).2 := by
  intro fuel
  induction fuel with
  | zero => intro comps comps' m _; rfl
  | succ fuel ih =>
      intro comps comps' m hmap
      rw [computeLoop, computeLoop]
      have hm : (runPass conns comps m).2.1 = (runPass conns comps' m).2.1 :=
        runPass_map_congr conns comps comps' m hmap
      have hskel : (runPass conns comps m).1.map skel =
          (runPass conns comps' m).1.map skel :=
        ((runPass_skel_map conns comps m).trans hmap).trans
          (runPass_skel_map conns comps' m).symm
      by_cases hb : (runPass conns comps m).2.2 = true <;>
        by_cases hb' : (runPass conns comps' m).2.2 = true
      · rw [if_pos hb, if_pos hb', hm]
        exact ih (runPass conns comps m).1 (runPass conns comps' m).1 _ hskel
      · -- left continues, right stopped: right is a fixed point, so the left
        -- loop can never move the map either
        rw [if_pos hb, if_neg hb']
        have hfix := (runPass_false conns comps' m (by simpa using hb')).2
        have hfixm : (runPass conns comps' m).2.1 = m := by rw [hfix]
        rw [hm, hfixm]
        exact computeLoop_stable conns fuel (runPass conns comps m).1 comps' m
          ((runPass_skel_map conns comps m).trans hmap) hfixm
      · rw [if_neg hb, if_pos hb']
        have hfix := (runPass_false conns comps m (by simpa using hb)).2
        have hfixm : (runPass conns comps m).2.1 = m := by rw [hfix]
        rw [hm.symm, hfixm]
        exact (computeLoop_stable conns fuel (runPass conns comps' m).1 comps m
          ((runPass_skel_map conns comps' m).trans hmap.symm) hfixm).symm
      · rw [if_neg hb, if_neg hb']
        exact hm

/-- The bounded loop preserves the skeleton list. -/
theorem computeLoop_skel_map (conns : List Connection) :
    ∀ (fuel : ℕ) (comps : List Component) (m : PMap),
      (computeLoop conns fuel comps m).1.map skel = comps.map skel := by
  intro fuel
  induction fuel with
  | zero => intro comps m; rfl
  | succ fuel ih =>
      intro comps m
      rw [computeLoop]
      by_cases hb : (runPass conns comps m).2.2 = true
      · rw [if_pos hb]
        exact (ih (runPass conns comps m).1 _).trans (runPass_skel_map conns comps m)
      · rw [if_neg hb]
        exact runPass_skel_map conns comps m

/-- C9: `recompute()` is idempotent — running `computeColors` again on the
state it produced, with no intervening mutation, yields the identical
port-output map.  The key invariant: storage slots only ever feed back the
value a port just read, so the map dynamics depend only on the component
skeletons, which `computeColors` never changes. -/
theorem computeColors_idempotent (comps : List Component)
    (conns : List Connection) :
    (computeColors (computeColors comps conns).1 conns).2 =
      (computeColors comps conns).2 := by
  unfold computeColors
  exact computeLoop_map_congr conns 8 (computeLoop conns 8 comps []).1 comps []
    (computeLoop_skel_map conns 8 comps [])

end Pigment
